import Mathlib

/-!
Shallow embedding of the core of the `lvaman/genealogy` repository:
the identifier generator (`src/utils/id-generator.js`), the person
validator (`PersonValidator`), the schema adapter
(`src/adapters/toFamilyChartData.js`) and the date-display policy of
`src/components/chart.js` (`formatDate`), together with theorems that
settle the specification claims about them.

Modelling conventions:
* JavaScript `null`/`undefined` string fields become `Option String`;
  a JS truthiness test on a string field (`if (x)`) is `truthyOpt`
  (absent or empty string is falsy).
* `Date.now()` is an explicit `now : Nat` argument.
* The i18n lookup `t(key)` of `chart.js` is kept abstract: a render
  result is tagged with the key it was looked up under.
* Fuel-based recursion replaces JS `while` loops; sufficiency of the
  chosen fuel is proved, so the functions are total on all inputs.
-/

/-- JS truthiness for an optional string: `null`/`undefined` and `""` are falsy. -/
def truthyOpt : Option String → Bool
  | none => false
  | some s => !(s == "")

/-- JS `x || d` for a string-valued `x` with a string default `d`. -/
def jsOrStr (o : Option String) (d : String) : String :=
  match o with
  | none => d
  | some s => if s == "" then d else s

/-- JS `x || null` for a string-valued `x`: falsy values collapse to `null`. -/
def jsOrNull (o : Option String) : Option String :=
  match o with
  | none => none
  | some s => if s == "" then none else some s

/-- JS `array.filter(Boolean)` over a list of optional strings. -/
def truthyStrings (l : List (Option String)) : List String :=
  l.foldr (fun o acc =>
    match o with
    | none => acc
    | some s => if s == "" then acc else s :: acc) []

/-- JS `a || b || ''` chains on string-valued expressions: the first truthy
value, or `""` when none is truthy. -/
def jsStrChain (l : List (Option String)) : String :=
  match l.find? truthyOpt with
  | some (some s) => s
  | _ => ""

/-- JS `String.prototype.trim`: strip whitespace from both ends, written
over the character list so that it reduces in the kernel. -/
def jsTrim (s : String) : String :=
  String.mk (((s.data.dropWhile Char.isWhitespace).reverse.dropWhile
    Char.isWhitespace).reverse)

/-- Decimal digit characters of a natural number, most significant first,
computed with structural fuel so that the definition reduces in the kernel. -/
def natToDecAux : Nat → Nat → List Char
  | 0, _ => []
  | fuel + 1, n =>
    if n < 10 then [Nat.digitChar n]
    else natToDecAux fuel (n / 10) ++ [Nat.digitChar (n % 10)]

/-- Decimal digit characters of a natural number, most significant first. -/
def natToDecChars (n : Nat) : List Char := natToDecAux (n + 1) n

/-- Decimal rendering of a natural number, modelling JS `${n}` template
interpolation of a nonnegative integer. -/
def natToDec (n : Nat) : String := String.mk (natToDecChars n)

/-- One entry of a person's `names` array (Firestore schema). -/
structure NameEntry where
  type : Option String
  first_name : Option String
  middle_name : Option String
  last_name : Option String
  display_name : Option String
  is_current : Bool
deriving DecidableEq

/-- One entry of a person's `unions` array. -/
structure UnionEntry where
  union_id : Option String
  spouse_id : Option String
  union_type : Option String
  union_order : Option Int
  status : Option String
  end_reason : Option String
deriving DecidableEq

/-- One entry of a person's `events` array. -/
structure EventEntry where
  type : Option String
  date : Option String
  date_precision : Option String
  union_id : Option String
  place : Option String
  place_latitude : Option Rat
  place_longitude : Option Rat
  certainty : Option String
deriving DecidableEq

/-- Legacy dedicated `birth` / `death` sub-record of the pre-events schema. -/
structure LegacyVital where
  date : Option String
  place : Option String
deriving DecidableEq

/-- A person record as stored, covering both schema generations used by the
adapter and the validator. -/
structure Person where
  id : String
  names : Option (List NameEntry)
  gender : Option String
  vital_status : Option String
  events : Option (List EventEntry)
  father_id : Option String
  mother_id : Option String
  unions : Option (List UnionEntry)
  sibling_order : Option Int
  biography : Option String
  display_name : Option String
  first_name : Option String
  middle_name : Option String
  last_name : Option String
  other_first_names : Option (List String)
  nicknames : Option (List String)
  birth : Option LegacyVital
  death : Option LegacyVital
deriving DecidableEq

/-- A person record with every field absent, used to build concrete examples. -/
def blankPerson : Person where
  id := ""
  names := none
  gender := none
  vital_status := none
  events := none
  father_id := none
  mother_id := none
  unions := none
  sibling_order := none
  biography := none
  display_name := none
  first_name := none
  middle_name := none
  last_name := none
  other_first_names := none
  nicknames := none
  birth := none
  death := none

/-- The fixed substitution table of `removeDiacritics` in
`src/utils/id-generator.js`, keyed by the lowercased character. -/
def diacriticMap : Char → Option Char
  | 'à' | 'á' | 'â' | 'ã' | 'ä' | 'å' | 'ă' | 'ą' => some 'a'
  | 'è' | 'é' | 'ê' | 'ë' | 'ę' | 'ė' | 'ě' => some 'e'
  | 'ì' | 'í' | 'î' | 'ï' | 'į' => some 'i'
  | 'ò' | 'ó' | 'ô' | 'õ' | 'ö' | 'ø' | 'ő' => some 'o'
  | 'ù' | 'ú' | 'û' | 'ü' | 'ű' | 'ū' => some 'u'
  | 'ý' | 'ÿ' => some 'y'
  | 'ñ' | 'ń' | 'ň' => some 'n'
  | 'ç' | 'ć' | 'č' => some 'c'
  | 'ş' | 'ś' | 'š' => some 's'
  | 'ž' | 'ź' | 'ż' => some 'z'
  | 'đ' | 'ď' => some 'd'
  | 'ł' | 'ľ' => some 'l'
  | 'ř' | 'ŕ' => some 'r'
  | 'ť' => some 't'
  | 'ắ' | 'ằ' | 'ẳ' | 'ẵ' | 'ặ' => some 'a'
  | 'ấ' | 'ầ' | 'ẩ' | 'ẫ' | 'ậ' => some 'a'
  | 'ế' | 'ề' | 'ể' | 'ễ' | 'ệ' => some 'e'
  | 'ố' | 'ồ' | 'ổ' | 'ỗ' | 'ộ' => some 'o'
  | 'ơ' | 'ớ' | 'ờ' | 'ở' | 'ỡ' | 'ợ' => some 'o'
  | 'ư' | 'ứ' | 'ừ' | 'ử' | 'ữ' | 'ự' => some 'u'
  | _ => none

/-- `removeDiacritics` of `id-generator.js`: each character is looked up by
its lowercase form and replaced by the mapped ASCII base letter when found. -/
def removeDiacritics (s : String) : String :=
  String.mk (s.data.map (fun c =>
    match diacriticMap c.toLower with
    | some b => b
    | none => c))

/-- Character class `[a-z0-9]` used by the slug replacement step. -/
def isLowerAlnum (c : Char) : Bool :=
  ('a' ≤ c && c ≤ 'z') || ('0' ≤ c && c ≤ '9')

/-- Collapse runs of underscores to a single underscore. -/
def collapseUnderscores : List Char → List Char
  | [] => []
  | '_' :: '_' :: rest => collapseUnderscores ('_' :: rest)
  | c :: rest => c :: collapseUnderscores rest

/-- Remove one leading and one trailing underscore (`replace(/^_|_$/g, '')`). -/
def stripEdgeUnderscores (l : List Char) : List Char :=
  let l1 := match l with
    | '_' :: rest => rest
    | other => other
  match l1.getLast? with
  | some '_' => l1.dropLast
  | _ => l1

/-- `slugify` of `id-generator.js`: lowercase, strip diacritics, replace
non-alphanumeric runs by `_`, collapse `_` runs, strip edge underscores. -/
def slugify (s : String) : String :=
  if s == "" then ""
  else
    let lowered := String.mk ((removeDiacritics s).data.map Char.toLower)
    let replaced := lowered.data.map (fun c => if isLowerAlnum c then c else '_')
    String.mk (stripEdgeUnderscores (collapseUnderscores replaced))

/-- `slugify` applied to a possibly-absent string (`slugify(undefined) = ""`). -/
def slugifyOpt (o : Option String) : String :=
  match o with
  | none => ""
  | some s => slugify s

/-- The primary name used by `generatePersonId`:
`person.names?.find(n => n.is_current) || person.names?.[0]`. -/
def primaryNameOf (person : Person) : Option NameEntry :=
  match person.names with
  | none => none
  | some l =>
    match l.find? (·.is_current) with
    | some nm => some nm
    | none => l.head?

/-- Collision-resolution loop of `generatePersonId`: starting at `counter`,
try `base_counter`, `base_(counter+1)`, … until a candidate misses
`existingIds`; `fuel` bounds the search. -/
def searchFreeId (base : String) (existingIds : Finset String) :
    Nat → Nat → Option String
  | 0, _ => none
  | fuel + 1, counter =>
    let cand := base ++ "_" ++ natToDec counter
    if cand ∈ existingIds then searchFreeId base existingIds fuel (counter + 1)
    else some cand

/-- The non-degenerate branch of `generatePersonId`: slugify the name parts,
join the truthy parts with `_`, and resolve collisions with the `_2`, `_3`, …
counter loop. -/
def slugIdFor (nm : NameEntry) (existingIds : Finset String) : String :=
  let lastName := slugifyOpt nm.last_name
  let middleName := slugifyOpt nm.middle_name
  let firstName := slugifyOpt nm.first_name
  let baseId := String.intercalate "_" (([lastName, middleName, firstName]).filter (· ≠ ""))
  if baseId ∈ existingIds then
    (searchFreeId baseId existingIds (existingIds.card + 1) 2).getD baseId
  else baseId

/-- `generatePersonId` of `id-generator.js`. The call `Date.now()` of the
degenerate fallback branch is the explicit argument `now`. -/
def generatePersonId (person : Person) (existingIds : Finset String) (now : Nat) : String :=
  match primaryNameOf person with
  | none => "person_" ++ natToDec now
  | some nm =>
    if truthyOpt nm.last_name && truthyOpt nm.first_name then
      slugIdFor nm existingIds
    else "person_" ++ natToDec now

/-- Per-record reference rewrite of `updateIdReferences`. -/
def updatePersonRefs (oldId newId : String) (p : Person) : Person :=
  { p with
    father_id := if p.father_id = some oldId then some newId else p.father_id
    mother_id := if p.mother_id = some oldId then some newId else p.mother_id
    unions :=
      match p.unions with
      | none => p.unions
      | some us => some (us.map (fun u =>
          { u with spouse_id := if u.spouse_id = some oldId then some newId else u.spouse_id })) }

/-- `updateIdReferences` of `id-generator.js`: rewrite every `father_id`,
`mother_id` and union `spouse_id` equal to `oldId` into `newId`. -/
def updateIdReferences (allPeople : List Person) (oldId newId : String) : List Person :=
  allPeople.map (updatePersonRefs oldId newId)

/-- A structured validation error, mirroring the `ValidationError(field, message)`
class of the person validator. -/
structure ValidationError where
  field : String
  message : String
deriving DecidableEq

namespace PersonValidator

/-- Character class `[a-z0-9_]` of the ID format check. -/
def isIdChar (c : Char) : Bool :=
  ('a' ≤ c && c ≤ 'z') || ('0' ≤ c && c ≤ '9') || c == '_'

/-- `validateId`: required, non-blank, format, and uniqueness checks.
`currentId` is `null` for a new person, the person's own id otherwise. -/
def validateId (existingIds : List String) (id : String) (currentId : Option String) :
    List ValidationError :=
  if id == "" then [⟨"id", "ID is required"⟩]
  else
    (if jsTrim id == "" then [⟨"id", "ID cannot be empty"⟩] else []) ++
    (if id.data.all isIdChar then []
     else [⟨"id", "ID must be lowercase letters, numbers, and underscores only"⟩]) ++
    (if some id ≠ currentId ∧ id ∈ existingIds then
      [⟨"id", "ID already exists - must be unique"⟩]
     else [])

/-- The fixed name-type enumeration of `validateNames`. -/
def validNameTypes : List String :=
  ["english", "vietnamese", "french", "legal", "birth", "married", "alias"]

/-- `validateNames`: at least one entry, at least one entry flagged
`is_current`, per-entry first/last-name presence and type membership. -/
def validateNames (names : Option (List NameEntry)) : List ValidationError :=
  match names with
  | none => [⟨"names", "At least one name is required"⟩]
  | some l =>
    if l.isEmpty then [⟨"names", "At least one name is required"⟩]
    else
      (if l.any (·.is_current) then []
       else [⟨"names", "One name must be marked as current"⟩]) ++
      l.enum.foldr (fun (p : Nat × NameEntry) acc =>
        (if truthyOpt p.2.first_name && truthyOpt p.2.last_name then []
         else [⟨"names[" ++ natToDec p.1 ++ "]",
                "Name must have at least first_name and last_name"⟩]) ++
        (match p.2.type with
         | some t =>
           if t ≠ "" ∧ t ∉ validNameTypes then
             [⟨"names[" ++ natToDec p.1 ++ "].type",
               "Invalid name type. Must be one of: " ++
                 String.intercalate ", " validNameTypes⟩]
           else []
         | none => []) ++ acc) []

/-- `validateGender`: `M`, `F` or `U`. -/
def validateGender (gender : Option String) : Option ValidationError :=
  match gender with
  | some g =>
    if g ∈ ["M", "F", "U"] then none
    else some ⟨"gender", "Gender must be M (Male), F (Female), or U (Unknown)"⟩
  | none => some ⟨"gender", "Gender must be M (Male), F (Female), or U (Unknown)"⟩

/-- `validateVitalStatus`: `living`, `deceased` or `unknown`. -/
def validateVitalStatus (vitalStatus : Option String) : Option ValidationError :=
  match vitalStatus with
  | some v =>
    if v ∈ ["living", "deceased", "unknown"] then none
    else some ⟨"vital_status", "Vital status must be living, deceased, or unknown"⟩
  | none => some ⟨"vital_status", "Vital status must be living, deceased, or unknown"⟩

/-- Date-format pattern `\d{4}-\d{2}-\d{2}` (precision `day`). -/
def isDayFormat (s : String) : Bool :=
  match s.data with
  | [a, b, c, d, e, f, g, h, i, j] =>
    a.isDigit && b.isDigit && c.isDigit && d.isDigit && e == '-' &&
    f.isDigit && g.isDigit && h == '-' && i.isDigit && j.isDigit
  | _ => false

/-- Date-format pattern `\d{4}-\d{2}` (precision `month`). -/
def isMonthFormat (s : String) : Bool :=
  match s.data with
  | [a, b, c, d, e, f, g] =>
    a.isDigit && b.isDigit && c.isDigit && d.isDigit && e == '-' &&
    f.isDigit && g.isDigit
  | _ => false

/-- Date-format pattern `\d{4}` (precision `year`). -/
def isYearFormat (s : String) : Bool :=
  match s.data with
  | [a, b, c, d] => a.isDigit && b.isDigit && c.isDigit && d.isDigit
  | _ => false

/-- Date-format pattern `\d{4}-\d{2}-\d{2}T\d{2}:\d{2}` (precision `time`). -/
def isTimeFormat (s : String) : Bool :=
  match s.data with
  | [a, b, c, d, e, f, g, h, i, j, k, l, m, o, p, q] =>
    a.isDigit && b.isDigit && c.isDigit && d.isDigit && e == '-' &&
    f.isDigit && g.isDigit && h == '-' && i.isDigit && j.isDigit &&
    k == 'T' && l.isDigit && m.isDigit && o == ':' && p.isDigit && q.isDigit
  | _ => false

/-- `validateDateFormat`: `decade` and `century` accept free text; `day`,
`month`, `year` and `time` are checked against their patterns; unknown
precisions are not checked. -/
def validateDateFormat (date precision : String) (eventIdx : Nat) :
    Option ValidationError :=
  if precision == "decade" || precision == "century" then none
  else
    let bad : Option ValidationError :=
      some ⟨"events[" ++ natToDec eventIdx ++ "].date",
        "Date format must match precision \"" ++ precision ++ "\""⟩
    match precision with
    | "day" => if isDayFormat date then none else bad
    | "month" => if isMonthFormat date then none else bad
    | "year" => if isYearFormat date then none else bad
    | "time" => if isTimeFormat date then none else bad
    | _ => none

/-- The fixed event-type enumeration of `validateEvents`. -/
def validEventTypes : List String :=
  ["birth", "death", "marriage", "divorce", "baptism", "burial",
   "engagement", "graduation", "adoption", "immigration", "emigration",
   "occupation", "residence", "military"]

/-- The fixed certainty enumeration of `validateEvents`. -/
def validCertainties : List String :=
  ["certain", "probable", "possible", "uncertain", "living"]

/-- Per-event checks of `validateEvents`. -/
def eventErrors (unionIds : List (Option String)) (p : Nat × EventEntry) :
    List ValidationError :=
  let idx := p.1
  let event := p.2
  (match event.type with
   | some t => if t ∈ validEventTypes then []
               else [⟨"events[" ++ natToDec idx ++ "].type", "Invalid event type"⟩]
   | none => [⟨"events[" ++ natToDec idx ++ "].type", "Invalid event type"⟩]) ++
  (if event.type = some "marriage" ∧ truthyOpt event.union_id = false then
    [⟨"events[" ++ natToDec idx ++ "].union_id", "Marriage event must have union_id"⟩]
   else []) ++
  (match event.union_id with
   | some u =>
     if u ≠ "" ∧ some u ∉ unionIds then
       [⟨"events[" ++ natToDec idx ++ "].union_id",
         "Marriage event union_id does not match any union"⟩]
     else []
   | none => []) ++
  (match event.date, event.date_precision with
   | some d, some pr =>
     if d ≠ "" ∧ pr ≠ "" then (validateDateFormat d pr idx).toList else []
   | _, _ => []) ++
  (match event.place_latitude with
   | some lat =>
     if lat < -90 ∨ 90 < lat then
       [⟨"events[" ++ natToDec idx ++ "].place_latitude",
         "Latitude must be a number between -90 and 90"⟩]
     else []
   | none => []) ++
  (match event.place_longitude with
   | some lon =>
     if lon < -180 ∨ 180 < lon then
       [⟨"events[" ++ natToDec idx ++ "].place_longitude",
         "Longitude must be a number between -180 and 180"⟩]
     else []
   | none => []) ++
  (match event.certainty with
   | some c => if c ≠ "" ∧ c ∉ validCertainties then
                 [⟨"events[" ++ natToDec idx ++ "].certainty", "Invalid certainty value"⟩]
               else []
   | none => [])

/-- `validateEvents`: per-event type, marriage-union linkage, date-format,
coordinate-bound and certainty checks. -/
def validateEvents (events : List EventEntry) (unions : Option (List UnionEntry)) :
    List ValidationError :=
  let unionIds := (unions.getD []).map (·.union_id)
  events.enum.foldr (fun p acc => eventErrors unionIds p ++ acc) []

/-- Push a truthy parent id onto the walk stack (`if (id) toCheck.push(id)`). -/
def optPushTruthy (o : Option String) (stack : List String) : List String :=
  match o with
  | none => stack
  | some s => if s == "" then stack else s :: stack

/-- Push a found person's father then mother onto the stack. The JS array is
popped from its end, so the Lean list keeps the top of the stack at its head:
the mother, pushed last, ends up on top. -/
def pushParents (p : Person) (stack : List String) : List String :=
  optPushTruthy p.mother_id (optPushTruthy p.father_id stack)

/-- Initial stack of `checkCircularParents`:
`[fatherId, motherId].filter(Boolean)`, with the JS array end at the head. -/
def initialStack (fatherId motherId : Option String) : List String :=
  optPushTruthy motherId (optPushTruthy fatherId [])

/-- The `while (toCheck.length > 0)` loop of `checkCircularParents`, with
explicit fuel. `some true` means a violation was reported (an id was
revisited), `some false` a clean exit, `none` exhausted fuel. -/
def circAux (people : List Person) : List String → List String → Nat → Option Bool
  | _, _, 0 => none
  | _, [], _ + 1 => some false
  | visited, cur :: rest, fuel + 1 =>
    if cur ∈ visited then some true
    else
      match people.find? (fun p => p.id == cur) with
      | none => circAux people (cur :: visited) rest fuel
      | some p => circAux people (cur :: visited) (pushParents p rest) fuel

/-- Every parent id mentioned by any record of the roster. -/
def mentionedParentIds (people : List Person) : List String :=
  people.foldr (fun p acc => p.father_id.toList ++ p.mother_id.toList ++ acc) []

/-- Fuel that is provably sufficient for the `checkCircularParents` walk. -/
def circFuel (people : List Person) (fatherId motherId : Option String) : Nat :=
  (initialStack fatherId motherId).length +
    3 * ((initialStack fatherId motherId ++ mentionedParentIds people).dedup).length + 1

/-- `checkCircularParents` of the person validator: walk the ancestor chain
from the candidate's parents and report a violation when an already-visited
id is popped again. -/
def checkCircularParents (people : List Person) (personId : String)
    (fatherId motherId : Option String) : Bool :=
  (circAux people [personId] (initialStack fatherId motherId)
    (circFuel people fatherId motherId)).getD false

/-- `personExists` of the validator: membership in the roster's id set. -/
def personExists (existingIds : List String) (personId : String) : Bool :=
  personId ∈ existingIds

/-- Per-union checks of `validateRelationships`. -/
def unionErrors (existingIds : List String) (p : Nat × UnionEntry) :
    List ValidationError :=
  let idx := p.1
  let union := p.2
  (match union.spouse_id with
   | some s =>
     if s ≠ "" ∧ ¬ personExists existingIds s then
       [⟨"unions[" ++ natToDec idx ++ "].spouse_id",
         "Spouse ID references non-existent person"⟩]
     else []
   | none => []) ++
  (match union.union_type with
   | some t =>
     if t ≠ "" ∧ t ∉ ["marriage", "partnership", "common_law"] then
       [⟨"unions[" ++ natToDec idx ++ "].union_type", "Invalid union type"⟩]
     else []
   | none => []) ++
  (match union.status with
   | some st =>
     if st ≠ "" ∧ st ∉ ["current", "ended"] then
       [⟨"unions[" ++ natToDec idx ++ "].status", "Union status must be current or ended"⟩]
     else []
   | none => [])

/-- `validateRelationships` of the person validator: parent-id resolution,
the circular-parents check and per-union checks. -/
def validateRelationships (allPeople : List Person) (existingIds : List String)
    (person : Person) : List ValidationError :=
  (match person.father_id with
   | some f =>
     if f ≠ "" ∧ ¬ personExists existingIds f then
       [⟨"father_id", "Father ID references non-existent person"⟩]
     else []
   | none => []) ++
  (match person.mother_id with
   | some m =>
     if m ≠ "" ∧ ¬ personExists existingIds m then
       [⟨"mother_id", "Mother ID references non-existent person"⟩]
     else []
   | none => []) ++
  (if checkCircularParents allPeople person.id person.father_id person.mother_id then
    [⟨"relationships", "Circular parent relationship detected"⟩]
   else []) ++
  (match person.unions with
   | some us => us.enum.foldr (fun p acc => unionErrors existingIds p ++ acc) []
   | none => [])

/-- `validateSiblingOrder`: a positive integer. -/
def validateSiblingOrder (siblingOrder : Int) : Option ValidationError :=
  if siblingOrder < 1 then
    some ⟨"sibling_order", "Sibling order must be a positive integer (1, 2, 3...)"⟩
  else none

/-- `PersonValidator.validate`: run every check and collect all errors.
The validator instance state `allPeople` / `existingIds` is passed
explicitly; `isNew` selects the `currentId` of the uniqueness check. -/
def validate (allPeople : List Person) (person : Person) (isNew : Bool) :
    List ValidationError :=
  let existingIds := allPeople.map (·.id)
  validateId existingIds person.id (if isNew then none else some person.id) ++
  validateNames person.names ++
  (validateGender person.gender).toList ++
  (validateVitalStatus person.vital_status).toList ++
  (match person.events with
   | some evs => validateEvents evs person.unions
   | none => []) ++
  validateRelationships allPeople existingIds person ++
  (match person.sibling_order with
   | some so => (validateSiblingOrder so).toList
   | none => [])

end PersonValidator

/-- Collapse runs of whitespace to a single space (`replace(/\s+/g, ' ')`);
the flag records whether the previous character belonged to a whitespace run. -/
def collapseWsAux : Bool → List Char → List Char
  | _, [] => []
  | prevWs, c :: rest =>
    if c.isWhitespace then
      if prevWs then collapseWsAux true rest
      else ' ' :: collapseWsAux true rest
    else c :: collapseWsAux false rest

/-- Collapse runs of whitespace to a single space (`replace(/\s+/g, ' ')`). -/
def collapseWhitespace (l : List Char) : List Char := collapseWsAux false l

/-- JS template interpolation of a possibly-undefined string
(`${undefined}` renders as the text `undefined`). -/
def jsTemplateStr (o : Option String) : String := o.getD "undefined"

/-- `getDisplayName` of `toFamilyChartData.js`: the current (or first) name's
`display_name`, falling back to the whitespace-normalised
`last middle first` template, or the legacy top-level `display_name`. -/
def getDisplayName (person : Person) : String :=
  match person.names with
  | some (n0 :: rest) =>
    let currentName :=
      match (n0 :: rest).find? (·.is_current) with
      | some c => c
      | none => n0
    let joined := jsTemplateStr currentName.last_name ++ " " ++
      jsTemplateStr currentName.middle_name ++ " " ++
      jsTemplateStr currentName.first_name
    jsOrStr currentName.display_name
      (String.mk (collapseWhitespace (jsTrim joined).data))
  | _ => jsOrStr person.display_name ""

/-- `getEventData` of `toFamilyChartData.js`: the date and place of the first
event of the given type, with falsy values collapsed to `null`. -/
def getEventData (events : List EventEntry) (eventType : String) :
    Option String × Option String :=
  match events.find? (fun e => e.type == some eventType) with
  | none => (none, none)
  | some event => (jsOrNull event.date, jsOrNull event.place)

/-- The `[person.father_id, person.mother_id].filter(Boolean)` list. -/
def jsParentIds (p : Person) : List String :=
  truthyStrings [p.father_id, p.mother_id]

/-- The entries one person contributes to the `childrenByParent` map at a
given key: one copy of its own id per matching truthy parent field. -/
def childContrib (q : Person) (parentId : String) : List String :=
  (jsParentIds q).foldr (fun par acc =>
    if par = parentId then q.id :: acc else acc) []

/-- The derived children list for a parent id: the contents of the
`childrenByParent` map at that key (`[]` when absent). One entry is pushed
per matching truthy parent field, in roster order. -/
def childrenOf (people : List Person) (parentId : String) : List String :=
  people.foldr (fun q acc => childContrib q parentId ++ acc) []

/-- Order-preserving deduplication (`[...new Set(xs)]`). -/
def dedupSeen (seen : List String) : List String → List String
  | [] => []
  | x :: xs => if x ∈ seen then dedupSeen seen xs else x :: dedupSeen (x :: seen) xs

/-- Order-preserving deduplication keeping first occurrences. -/
def dedupKeepFirst (l : List String) : List String := dedupSeen [] l

/-- The `data` bag of a Family Chart node. -/
structure ChartData where
  gender : String
  display_name : String
  first_name : String
  middle_name : String
  last_name : String
  other_first_names : List String
  nicknames : List String
  birth_date : Option String
  birth_place : Option String
  death_date : Option String
  death_place : Option String
  vital_status : Option String
  unions : List UnionEntry
  biography : String
  sibling_order : Option Int
deriving DecidableEq

/-- The `rels` edge lists of a Family Chart node. -/
structure ChartRels where
  parents : List String
  spouses : List String
  children : List String
deriving DecidableEq

/-- A Family Chart node: `id`, display `data`, relationship edge lists. -/
structure ChartNode where
  id : String
  data : ChartData
  rels : ChartRels
deriving DecidableEq

/-- Per-person conversion of `toFamilyChartData` (the body of the second
`people.map` pass), with the children map realised by `childrenOf`. -/
def convertPerson (people : List Person) (person : Person) : ChartNode :=
  let parents := jsParentIds person
  let spouses :=
    match person.unions with
    | some us => dedupKeepFirst (truthyStrings (us.map (·.spouse_id)))
    | none => []
  let children := childrenOf people person.id
  let birthData :=
    match person.events with
    | some evs => getEventData evs "birth"
    | none => (match person.birth with
               | some b => b.date
               | none => none,
               match person.birth with
               | some b => b.place
               | none => none)
  let deathData :=
    match person.events with
    | some evs => getEventData evs "death"
    | none => (match person.death with
               | some d => d.date
               | none => none,
               match person.death with
               | some d => d.place
               | none => none)
  { id := person.id
    data :=
    { gender := jsOrStr person.gender "M"
      display_name := getDisplayName person
      first_name := jsStrChain
        [(match person.names with
          | some (n :: _) => n.first_name
          | _ => none), person.first_name]
      middle_name := jsStrChain
        [(match person.names with
          | some (n :: _) => n.middle_name
          | _ => none), person.middle_name]
      last_name := jsStrChain
        [(match person.names with
          | some (n :: _) => n.last_name
          | _ => none), person.last_name]
      other_first_names := person.other_first_names.getD []
      nicknames := person.nicknames.getD []
      birth_date := birthData.1
      birth_place := birthData.2
      death_date := deathData.1
      death_place := deathData.2
      vital_status := jsOrNull person.vital_status
      unions := person.unions.getD []
      biography := person.biography.getD ""
      sibling_order := person.sibling_order }
    rels := { parents := parents, spouses := spouses, children := children } }

/-- `toFamilyChartData`: empty input yields `[]`; otherwise every person is
converted against the children map built from the whole roster. -/
def toFamilyChartData (people : List Person) : List ChartNode :=
  if people.isEmpty then []
  else people.map (convertPerson people)

/-- The gender check of the adapter's `validateRelationships`. -/
def genderCheckErrors (person : ChartNode) : List String :=
  if person.data.gender ∈ ["M", "F", "U"] then []
  else ["Person " ++ person.id ++ " has invalid gender: " ++ person.data.gender]

/-- Per-node checks of the adapter's `validateRelationships`. -/
def nodeRelErrors (idSet : List String) (person : ChartNode) : List String :=
  (person.rels.parents.foldr (fun parentId acc =>
    (if parentId ∈ idSet then []
     else ["Person " ++ person.id ++ " references missing parent: " ++ parentId]) ++ acc) []) ++
  (person.rels.spouses.foldr (fun spouseId acc =>
    (if spouseId ∈ idSet then []
     else ["Person " ++ person.id ++ " references missing spouse: " ++ spouseId]) ++ acc) []) ++
  (person.rels.children.foldr (fun childId acc =>
    (if childId ∈ idSet then []
     else ["Person " ++ person.id ++ " references missing child: " ++ childId]) ++ acc) []) ++
  genderCheckErrors person

/-- The adapter's `validateRelationships` over the derived graph. -/
def validateRelationships (familyChartData : List ChartNode) : List String :=
  let idSet := familyChartData.map (·.id)
  familyChartData.foldr (fun p acc => nodeRelErrors idSet p ++ acc) []

/-- A rendered date value of `formatDate` in `chart.js`. The i18n lookup
`t(key)` is abstract, so a looked-up placeholder is tagged with its key:
`tok key` models `t(key)`, `txt` a string passed through verbatim, and
`loc` a locale-formatted parse result. -/
inductive DateRender where
  | tok (key : String)
  | txt (s : String)
  | loc (s : String)
deriving DecidableEq

/-- `formatDate` of `chart.js`. `jsDateParse` models the host's
`new Date(s)` / `toLocaleDateString` pipeline: `some` is a successful parse
with its locale rendering, `none` an invalid date. -/
def formatDate (jsDateParse : String → Option String) (dateValue : Option String)
    (isDeathDate : Bool) : DateRender :=
  match dateValue with
  | none => .tok "unknown"
  | some v =>
    let dateString := jsTrim v
    if dateString == "" then
      if isDeathDate then .tok "living" else .tok "unknown"
    else if PersonValidator.isYearFormat dateString then .txt dateString
    else
      match jsDateParse dateString with
      | some s => .loc s
      | none => .txt dateString

/-- Parent ids of the record with the given id, for the acyclicity predicate:
edges of the `father_id`/`mother_id` graph. -/
def parentsOfId (people : List Person) (pid : String) : List String :=
  match people.find? (fun p => p.id == pid) with
  | none => []
  | some p => p.father_id.toList ++ p.mother_id.toList

/-- All ancestors reachable from `pid` within `fuel` parent steps. -/
def ancestorsWithin (people : List Person) : Nat → String → List String
  | 0, _ => []
  | fuel + 1, pid =>
    (parentsOfId people pid).foldr
      (fun par acc => par :: ancestorsWithin people fuel par ++ acc) []

/-- The claim-side acyclicity predicate: no person of the roster is its own
ancestor through any `father_id`/`mother_id` chain. -/
def acyclicParentGraph (people : List Person) : Bool :=
  people.all (fun p => p.id ∉ ancestorsWithin people people.length p.id)

/-- The condition of `generatePersonId`'s non-degenerate branch: a primary
name exists and has truthy first and last names. -/
def hasCompleteName (person : Person) : Bool :=
  match primaryNameOf person with
  | some nm => truthyOpt nm.last_name && truthyOpt nm.first_name
  | none => false

/-- Decimal evaluation of a digit-character list. -/
def decCharsVal (l : List Char) : Nat :=
  l.foldl (fun acc c => 10 * acc + (c.toNat - 48)) 0

/-- A name entry with the given first and last name, flagged current. -/
def mkCurrentName (first last : String) : NameEntry where
  type := some "english"
  first_name := some first
  middle_name := none
  last_name := some last
  display_name := none
  is_current := true

/-- Concrete roster member: the shared great-grandfather `c`. -/
def cousinC : Person :=
  { blankPerson with
    id := "c"
    names := some [mkCurrentName "Carl" "Roe"]
    gender := some "M"
    vital_status := some "deceased" }

/-- Concrete roster member: `a`, son of `c`. -/
def cousinA : Person :=
  { blankPerson with
    id := "a"
    names := some [mkCurrentName "Al" "Roe"]
    gender := some "M"
    vital_status := some "deceased"
    father_id := some "c" }

/-- Concrete roster member: `b`, son of `c`. -/
def cousinB : Person :=
  { blankPerson with
    id := "b"
    names := some [mkCurrentName "Bob" "Roe"]
    gender := some "M"
    vital_status := some "deceased"
    father_id := some "c" }

/-- Concrete roster member: `f`, son of `a`. -/
def cousinF : Person :=
  { blankPerson with
    id := "f"
    names := some [mkCurrentName "Fred" "Roe"]
    gender := some "M"
    vital_status := some "living"
    father_id := some "a" }

/-- Concrete roster member: `m`, daughter of `b`. -/
def cousinM : Person :=
  { blankPerson with
    id := "m"
    names := some [mkCurrentName "Mary" "Roe"]
    gender := some "F"
    vital_status := some "living"
    father_id := some "b" }

/-- Concrete roster member: `q`, child of the first cousins `f` and `m`. -/
def cousinQ : Person :=
  { blankPerson with
    id := "q"
    names := some [mkCurrentName "Quinn" "Roe"]
    gender := some "M"
    vital_status := some "living"
    father_id := some "f"
    mother_id := some "m" }

/-- An acyclic six-person roster in which the candidate's parents are first
cousins, so two ancestor paths converge on the shared grandfather `c`. -/
def cousinRoster : List Person := [cousinC, cousinA, cousinB, cousinF, cousinM, cousinQ]

/-- A person record with two name entries both flagged `is_current`. -/
def dupCurrentPerson : Person :=
  { blankPerson with
    id := "doe_john"
    names := some [mkCurrentName "John" "Doe", mkCurrentName "Johnny" "Doe"]
    gender := some "M"
    vital_status := some "living" }

/-- A person record with no names at all, driving `generatePersonId` into
its degenerate placeholder branch. -/
def noNamePerson : Person := { blankPerson with id := "x" }

/-- A person record with a complete current name. -/
def tranMinhPerson : Person :=
  { blankPerson with names := some [mkCurrentName "Minh" "Tran"] }

/-- A record whose `father_id` is `"a"`, for the reference-rewrite claims. -/
def refHolderPerson : Person := { blankPerson with id := "k", father_id := some "a" }

/-- A record referencing `"a"` as father and as a union spouse. -/
def refRichPerson : Person :=
  { blankPerson with
    id := "w"
    father_id := some "a"
    mother_id := some "z"
    unions := some [{ union_id := some "u1"
                      spouse_id := some "a"
                      union_type := some "marriage"
                      union_order := none
                      status := some "current"
                      end_reason := none }] }

/-- Concrete parent used by the children-derivation claims. -/
def dupParentP : Person :=
  { blankPerson with
    id := "p1"
    names := some [mkCurrentName "Pat" "Poe"]
    gender := some "M"
    vital_status := some "living" }

/-- A child whose `father_id` and `mother_id` both name `p1`. -/
def dupParentQ : Person :=
  { blankPerson with
    id := "q1"
    names := some [mkCurrentName "Qa" "Poe"]
    gender := some "F"
    vital_status := some "living"
    father_id := some "p1"
    mother_id := some "p1" }

/-- Roster in which `q1` lists `p1` as both father and mother. -/
def dupParentRoster : List Person := [dupParentP, dupParentQ]

/-- A child whose `father_id` is `p1` and whose mother is unknown. -/
def singleParentQ : Person :=
  { blankPerson with
    id := "q2"
    names := some [mkCurrentName "Qb" "Poe"]
    gender := some "M"
    vital_status := some "living"
    father_id := some "p1" }

/-- Roster in which `q2` lists `p1` as father only. -/
def singleParentRoster : List Person := [dupParentP, singleParentQ]

/-- A person record whose `gender` field is absent. -/
def genderlessPerson : Person :=
  { blankPerson with
    id := "g"
    names := some [mkCurrentName "Gene" "Roe"]
    vital_status := some "living" }

/-!
Theorems. The numeral-rendering lemmas come first, then supporting lemmas
about the walk and search loops, then one theorem per specification claim.
-/

theorem natToDec_zero : natToDec 0 = "0" := rfl

theorem digitChar_toNat {d : Nat} (h : d < 10) : (Nat.digitChar d).toNat = 48 + d := by
  interval_cases d <;> rfl

theorem natToDecAux_foldl (fuel : Nat) :
    ∀ n a, n < fuel →
      (natToDecAux fuel n).foldl (fun acc c => 10 * acc + (c.toNat - 48)) a =
        a * 10 ^ (natToDecAux fuel n).length + n := by
  induction fuel with
  | zero => intro n a h; omega
  | succ fuel ih =>
    intro n a h
    by_cases h10 : n < 10
    · simp only [natToDecAux, if_pos h10, List.foldl_cons, List.foldl_nil,
        List.length_cons, List.length_nil]
      rw [digitChar_toNat h10]
      ring_nf
      omega
    · have h1 : n / 10 < n := Nat.div_lt_self (by omega) (by omega)
      have hdiv : n / 10 < fuel := by omega
      have hmod : n % 10 < 10 := Nat.mod_lt _ (by omega)
      simp only [natToDecAux, if_neg h10, List.foldl_append, List.foldl_cons,
        List.foldl_nil, List.length_append, List.length_cons, List.length_nil]
      rw [ih (n / 10) a hdiv, digitChar_toNat hmod]
      have hdm : 10 * (n / 10) + n % 10 = n := Nat.div_add_mod n 10
      have h48 : (48 : Nat) + n % 10 - 48 = n % 10 := by omega
      rw [h48]
      have hlen : (natToDecAux fuel (n / 10)).length + (0 + 1) =
          (natToDecAux fuel (n / 10)).length + 1 := by omega
      rw [hlen, pow_succ]
      generalize (10 : ℕ) ^ (natToDecAux fuel (n / 10)).length = P
      conv_rhs => rw [← hdm]
      ring

theorem decCharsVal_natToDecChars (n : Nat) : decCharsVal (natToDecChars n) = n := by
  have := natToDecAux_foldl (n + 1) n 0 (by omega)
  simpa [decCharsVal, natToDecChars] using this

theorem natToDecChars_injective : Function.Injective natToDecChars := by
  intro m n h
  have hm := decCharsVal_natToDecChars m
  have hn := decCharsVal_natToDecChars n
  rw [h, hn] at hm
  exact hm.symm

theorem natToDec_injective : Function.Injective natToDec := by
  intro m n h
  exact natToDecChars_injective (congrArg String.data h)


/-- C8: the date-display policy maps `null` to the "unknown" token, and maps
the empty string to the "living" token for a death date but the "unknown"
token for any other date field; the two renders differ although the input
string is identical. -/
theorem formatDate_null_empty_policy :
    ∀ jsDateParse : String → Option String,
      (∀ isDeathDate, formatDate jsDateParse none isDeathDate = .tok "unknown") ∧
      formatDate jsDateParse (some "") true = .tok "living" ∧
      formatDate jsDateParse (some "") false = .tok "unknown" ∧
      DateRender.tok "living" ≠ DateRender.tok "unknown" := by
  intro jsDateParse
  exact ⟨fun _ => rfl, rfl, rfl, by decide⟩

namespace PersonValidator

theorem mem_optPushTruthy {o : Option String} {stack : List String} {v : String}
    (h : v ∈ optPushTruthy o stack) : o = some v ∨ v ∈ stack := by
  cases o with
  | none => exact Or.inr h
  | some s =>
    by_cases hs : s == ""
    · simp only [optPushTruthy, if_pos hs] at h
      exact Or.inr h
    · simp only [optPushTruthy, if_neg hs] at h
      rcases List.mem_cons.mp h with h1 | h2
      · exact Or.inl (by rw [h1])
      · exact Or.inr h2

theorem mem_pushParents {p : Person} {stack : List String} {v : String}
    (h : v ∈ pushParents p stack) :
    p.father_id = some v ∨ p.mother_id = some v ∨ v ∈ stack := by
  rcases mem_optPushTruthy h with h1 | h1
  · exact Or.inr (Or.inl h1)
  · rcases mem_optPushTruthy h1 with h2 | h2
    · exact Or.inl h2
    · exact Or.inr (Or.inr h2)

theorem length_optPushTruthy (o : Option String) (stack : List String) :
    (optPushTruthy o stack).length ≤ stack.length + 1 := by
  cases o with
  | none => simp [optPushTruthy]
  | some s =>
    by_cases hs : s == "" <;> simp [optPushTruthy, hs]

theorem length_pushParents (p : Person) (stack : List String) :
    (pushParents p stack).length ≤ stack.length + 2 := by
  have h1 := length_optPushTruthy p.father_id stack
  have h2 := length_optPushTruthy p.mother_id (optPushTruthy p.father_id stack)
  unfold pushParents
  omega

theorem mem_mentionedParentIds {people : List Person} {p : Person} {v : String}
    (hp : p ∈ people) (h : p.father_id = some v ∨ p.mother_id = some v) :
    v ∈ mentionedParentIds people := by
  induction people with
  | nil => cases hp
  | cons q rest ih =>
    have hstep : mentionedParentIds (q :: rest) =
        q.father_id.toList ++ (q.mother_id.toList ++ mentionedParentIds rest) := by
      simp [mentionedParentIds]
    rw [hstep]
    rcases List.mem_cons.mp hp with rfl | hmem
    · rcases h with h1 | h1 <;> simp [h1]
    · simp [ih hmem]

theorem sdiff_card_lt_of_mem {U : Finset String} {V : List String} {cur : String}
    (hU : cur ∈ U) (hV : cur ∉ V) :
    (U \ (cur :: V).toFinset).card < (U \ V.toFinset).card := by
  apply Finset.card_lt_card
  rw [List.toFinset_cons]
  constructor
  · exact Finset.sdiff_subset_sdiff (Finset.Subset.refl U) (Finset.subset_insert cur _)
  · intro hcontra
    have hmem : cur ∈ U \ V.toFinset :=
      Finset.mem_sdiff.mpr ⟨hU, fun hc => hV (List.mem_toFinset.mp hc)⟩
    have := hcontra hmem
    rw [Finset.mem_sdiff] at this
    exact this.2 (Finset.mem_insert_self cur _)

theorem circAux_isSome (people : List Person) (U : Finset String)
    (hU : ∀ p ∈ people, ∀ v, p.father_id = some v ∨ p.mother_id = some v → v ∈ U) :
    ∀ fuel visited stack, (∀ v ∈ stack, v ∈ U) →
      stack.length + 3 * (U \ visited.toFinset).card < fuel →
      (circAux people visited stack fuel).isSome = true := by
  intro fuel
  induction fuel with
  | zero => intro visited stack hs hm; omega
  | succ fuel ih =>
    intro visited stack hs hm
    cases stack with
    | nil => simp [circAux]
    | cons cur rest =>
      by_cases hv : cur ∈ visited
      · simp [circAux, hv]
      · have hcurU : cur ∈ U := hs cur (List.mem_cons_self cur rest)
        have hlt := sdiff_card_lt_of_mem hcurU hv
        have hmr : rest.length + 1 + 3 * (U \ visited.toFinset).card < fuel + 1 := hm
        simp only [circAux, if_neg hv]
        cases hfind : people.find? (fun p => p.id == cur) with
        | none =>
          apply ih
          · intro v hvr
            exact hs v (List.mem_cons_of_mem _ hvr)
          · omega
        | some p =>
          have hpmem : p ∈ people := List.mem_of_find?_eq_some hfind
          apply ih
          · intro v hvp
            rcases mem_pushParents hvp with h1 | h1 | h1
            · exact hU p hpmem v (Or.inl h1)
            · exact hU p hpmem v (Or.inr h1)
            · exact hs v (List.mem_cons_of_mem _ h1)
          · have hlen := length_pushParents p rest
            omega

/-- C9: the ancestor walk of `checkCircularParents` terminates on every
roster, cyclic rosters included: with the fuel `circFuel` — bounded by the
initial stack plus the ids mentioned as parents anywhere in the roster —
the loop always reaches a verdict instead of running out of fuel. -/
theorem checkCircularParents_terminates (people : List Person) (personId : String)
    (fatherId motherId : Option String) :
    (circAux people [personId] (initialStack fatherId motherId)
      (circFuel people fatherId motherId)).isSome = true := by
  apply circAux_isSome people
    ((initialStack fatherId motherId ++ mentionedParentIds people).toFinset)
  · intro p hp v h
    rw [List.mem_toFinset]
    exact List.mem_append.mpr (Or.inr (mem_mentionedParentIds hp h))
  · intro v hv
    rw [List.mem_toFinset]
    exact List.mem_append.mpr (Or.inl hv)
  · have hcard : ((initialStack fatherId motherId ++ mentionedParentIds people).toFinset \
        ([personId] : List String).toFinset).card ≤
        (initialStack fatherId motherId ++ mentionedParentIds people).toFinset.card :=
      Finset.card_le_card Finset.sdiff_subset
    have hcardU := List.card_toFinset
      (initialStack fatherId motherId ++ mentionedParentIds people)
    unfold circFuel
    omega

end PersonValidator

/-- C1: on the acyclic six-person roster `cousinRoster` — the candidate
`q`'s parents are first cousins sharing the grandfather `c`, and no person
is their own ancestor — `validate` on `q` nevertheless reports the
circular-relationship violation, because the walk flags any revisited id,
not just the candidate's own id. -/
theorem validate_flags_acyclic_cousin_roster :
    acyclicParentGraph cousinRoster = true ∧
    (⟨"relationships", "Circular parent relationship detected"⟩ : ValidationError) ∈
      PersonValidator.validate cousinRoster cousinQ false := by
  decide

/-- C2: a person record whose `names` array holds two entries both flagged
`is_current` passes `validate` with zero violations, although the repo's
data-structure documentation requires exactly one current name. -/
theorem validate_accepts_two_current_names :
    (dupCurrentPerson.names.getD []).countP (·.is_current) = 2 ∧
    PersonValidator.validate [dupCurrentPerson] dupCurrentPerson false = [] := by
  decide

theorem string_eq_of_data_eq {s t : String} (h : s.data = t.data) : s = t := by
  cases s; cases t; exact congrArg String.mk h

theorem candidate_injective (base : String) :
    Function.Injective (fun k => base ++ "_" ++ natToDec k) := by
  intro j k h
  simp only at h
  have hdata := congrArg String.data h
  rw [String.data_append, String.data_append, String.data_append,
    String.data_append] at hdata
  have := List.append_cancel_left (List.append_assoc _ _ _ ▸
    List.append_assoc _ _ _ ▸ hdata)
  have hchars : (natToDec j).data = (natToDec k).data := List.append_cancel_left this
  exact natToDec_injective (string_eq_of_data_eq hchars)

theorem searchFreeId_sound (base : String) (S : Finset String) :
    ∀ fuel counter x, searchFreeId base S fuel counter = some x → x ∉ S := by
  intro fuel
  induction fuel with
  | zero => intro counter x h; simp [searchFreeId] at h
  | succ fuel ih =>
    intro counter x h
    simp only [searchFreeId] at h
    split at h
    · exact ih (counter + 1) x h
    · cases h
      assumption

theorem searchFreeId_none_mem (base : String) (S : Finset String) :
    ∀ fuel counter, searchFreeId base S fuel counter = none →
      ∀ k, counter ≤ k → k < counter + fuel → base ++ "_" ++ natToDec k ∈ S := by
  intro fuel
  induction fuel with
  | zero => intro counter _ k h1 h2; omega
  | succ fuel ih =>
    intro counter h k h1 h2
    simp only [searchFreeId] at h
    split at h
    · rcases Nat.eq_or_lt_of_le h1 with rfl | hlt
      · assumption
      · exact ih (counter + 1) h k hlt (by omega)
    · cases h

theorem searchFreeId_isSome (base : String) (S : Finset String) :
    searchFreeId base S (S.card + 1) 2 ≠ none := by
  intro hnone
  have hmem := searchFreeId_none_mem base S (S.card + 1) 2 hnone
  have hle : (Finset.Icc 2 (2 + S.card)).card ≤ S.card := by
    apply Finset.card_le_card_of_injOn (fun k => base ++ "_" ++ natToDec k)
    · intro k hk
      rw [Finset.mem_Icc] at hk
      exact hmem k hk.1 (by omega)
    · exact fun a _ b _ hab => candidate_injective base hab
  rw [Nat.card_Icc] at hle
  omega

theorem slugIdFor_not_mem (nm : NameEntry) (S : Finset String) :
    slugIdFor nm S ∉ S := by
  unfold slugIdFor
  set baseId := String.intercalate "_"
    (([slugifyOpt nm.last_name, slugifyOpt nm.middle_name,
       slugifyOpt nm.first_name]).filter (· ≠ "")) with hbase
  by_cases hb : baseId ∈ S
  · simp only [if_pos hb]
    cases hsearch : searchFreeId baseId S (S.card + 1) 2 with
    | none => exact absurd hsearch (searchFreeId_isSome baseId S)
    | some x =>
      simp only [Option.getD_some]
      exact searchFreeId_sound baseId S (S.card + 1) 2 x hsearch
  · simp only [if_neg hb]
    exact hb

/-- C3 (amended): whenever the person has a usable primary name — truthy
first and last name — `generatePersonId` returns an id outside
`existingIds`; the base slug is retried with `_2`, `_3`, … until it is
free. (The degenerate fallback branch instead returns the time-keyed
placeholder unchecked; see the counterexample.) -/
theorem generatePersonId_fresh (person : Person) (existingIds : Finset String)
    (now : Nat) (h : hasCompleteName person = true) :
    generatePersonId person existingIds now ∉ existingIds := by
  unfold generatePersonId
  unfold hasCompleteName at h
  cases hpn : primaryNameOf person with
  | none => rw [hpn] at h; cases h
  | some nm =>
    rw [hpn] at h
    dsimp only at h ⊢
    rw [if_pos h]
    exact slugIdFor_not_mem nm existingIds

/-- Witness for C3: on a concrete complete name whose base slug is already
taken, the generated id still avoids the existing-id set. -/
theorem generatePersonId_fresh_witness :
    generatePersonId tranMinhPerson {"tran_minh"} 0 ∉ ({"tran_minh"} : Finset String) :=
  generatePersonId_fresh tranMinhPerson {"tran_minh"} 0 (by decide)

/-- Counterexample for C3: with no usable name the fallback id
`person_<now>` is returned without consulting `existingIds`, so it can
collide with a member of the set. -/
theorem generatePersonId_fallback_collides :
    generatePersonId noNamePerson {"person_0"} 0 ∈ ({"person_0"} : Finset String) := by
  decide

/-- Counterexample for C6: identifier generation is not a pure function of
its explicit person/existing-id arguments — on a record with no usable
name, two different clock readings produce two different ids. -/
theorem generatePersonId_depends_on_clock :
    generatePersonId noNamePerson ∅ 0 ≠ generatePersonId noNamePerson ∅ 1 := by
  decide

/-- C6 (amended): the adapter is deterministic, and identifier generation is
independent of the clock whenever the person has a usable primary name;
only the degenerate fallback embeds the `Date.now()` reading. -/
theorem core_operations_deterministic (person : Person) (existingIds : Finset String)
    (now1 now2 : Nat) (h : hasCompleteName person = true) :
    (∀ people : List Person, toFamilyChartData people = toFamilyChartData people) ∧
    generatePersonId person existingIds now1 = generatePersonId person existingIds now2 := by
  refine ⟨fun _ => rfl, ?_⟩
  unfold generatePersonId
  unfold hasCompleteName at h
  cases hpn : primaryNameOf person with
  | none => rw [hpn] at h; cases h
  | some nm =>
    rw [hpn] at h
    dsimp only at h ⊢
    rw [if_pos h, if_pos h]

/-- Witness for C6: concrete instantiation on a complete name with two
different clock readings. -/
theorem core_operations_deterministic_witness :
    (∀ people : List Person, toFamilyChartData people = toFamilyChartData people) ∧
    generatePersonId tranMinhPerson ∅ 0 = generatePersonId tranMinhPerson ∅ 5 :=
  core_operations_deterministic tranMinhPerson ∅ 0 5 (by decide)

theorem updatePersonRefs_father {o n : String} (p : Person) :
    ((p.father_id = some o → (updatePersonRefs o n p).father_id = some n) ∧
     (p.father_id ≠ some o → (updatePersonRefs o n p).father_id = p.father_id)) := by
  constructor <;> intro h <;> simp [updatePersonRefs, h]

theorem updatePersonRefs_mother {o n : String} (p : Person) :
    ((p.mother_id = some o → (updatePersonRefs o n p).mother_id = some n) ∧
     (p.mother_id ≠ some o → (updatePersonRefs o n p).mother_id = p.mother_id)) := by
  constructor <;> intro h <;> simp [updatePersonRefs, h]

theorem updatePersonRefs_no_old {o n : String} (hne : o ≠ n) (p : Person) :
    (updatePersonRefs o n p).father_id ≠ some o ∧
    (updatePersonRefs o n p).mother_id ≠ some o ∧
    ∀ u ∈ (updatePersonRefs o n p).unions.getD [], u.spouse_id ≠ some o := by
  have hno : ¬ (n = o) := fun hc => hne hc.symm
  refine ⟨?_, ?_, ?_⟩
  · by_cases h : p.father_id = some o
    · simp only [updatePersonRefs, if_pos h, ne_eq, Option.some.injEq]
      exact hno
    · simp only [updatePersonRefs, if_neg h]
      exact h
  · by_cases h : p.mother_id = some o
    · simp only [updatePersonRefs, if_pos h, ne_eq, Option.some.injEq]
      exact hno
    · simp only [updatePersonRefs, if_neg h]
      exact h
  · intro u hu
    cases hus : p.unions with
    | none => simp [updatePersonRefs, hus] at hu
    | some us =>
      simp only [updatePersonRefs, hus, Option.getD_some] at hu
      rcases List.mem_map.mp hu with ⟨v, _, rfl⟩
      by_cases h : v.spouse_id = some o
      · simp only [if_pos h, ne_eq, Option.some.injEq]
        exact hno
      · simp only [if_neg h]
        exact h

theorem updatePersonRefs_spouse_tracking {o n : String} (p : Person) :
    ∀ (i : Nat) (u : UnionEntry), (p.unions.getD [])[i]? = some u →
      ∃ u', ((updatePersonRefs o n p).unions.getD [])[i]? = some u' ∧
        (u.spouse_id = some o → u'.spouse_id = some n) ∧
        (u.spouse_id ≠ some o → u'.spouse_id = u.spouse_id) := by
  intro i u hu
  cases hus : p.unions with
  | none => rw [hus] at hu; simp at hu
  | some us =>
    rw [hus] at hu
    simp only [Option.getD_some] at hu
    refine ⟨{ u with spouse_id := if u.spouse_id = some o then some n else u.spouse_id },
      ?_, ?_, ?_⟩
    · simp only [updatePersonRefs, hus, Option.getD_some, List.getElem?_map, hu,
        Option.map_some']
    · intro h
      simp [h]
    · intro h
      simp [h]

/-- C4 (amended): provided `oldId ≠ newId`, no record in the output of
`updateIdReferences` still references `oldId` in `father_id`, `mother_id`
or any union `spouse_id`; and for every input record, the corresponding
output record carries `newId` exactly in the fields that held `oldId`, all
other reference fields being unchanged. (When `oldId = newId` the rewrite
is the identity and `oldId` survives; see the counterexample.) -/
theorem updateIdReferences_rewrites_all (roster : List Person) (o n : String)
    (hne : o ≠ n) :
    (∀ r' ∈ updateIdReferences roster o n,
      r'.father_id ≠ some o ∧ r'.mother_id ≠ some o ∧
      ∀ u ∈ r'.unions.getD [], u.spouse_id ≠ some o) ∧
    (∀ r ∈ roster,
      updatePersonRefs o n r ∈ updateIdReferences roster o n ∧
      (r.father_id = some o → (updatePersonRefs o n r).father_id = some n) ∧
      (r.father_id ≠ some o → (updatePersonRefs o n r).father_id = r.father_id) ∧
      (r.mother_id = some o → (updatePersonRefs o n r).mother_id = some n) ∧
      (r.mother_id ≠ some o → (updatePersonRefs o n r).mother_id = r.mother_id) ∧
      (∀ (i : Nat) (u : UnionEntry), (r.unions.getD [])[i]? = some u →
        ∃ u', ((updatePersonRefs o n r).unions.getD [])[i]? = some u' ∧
          (u.spouse_id = some o → u'.spouse_id = some n) ∧
          (u.spouse_id ≠ some o → u'.spouse_id = u.spouse_id))) := by
  constructor
  · intro r' hr'
    rcases List.mem_map.mp hr' with ⟨r, _, rfl⟩
    exact updatePersonRefs_no_old hne r
  · intro r hr
    exact ⟨List.mem_map_of_mem _ hr,
      (updatePersonRefs_father r).1, (updatePersonRefs_father r).2,
      (updatePersonRefs_mother r).1, (updatePersonRefs_mother r).2,
      updatePersonRefs_spouse_tracking r⟩

/-- Witness for C4: concrete rewrite of `"a"` to `"b"` on a record holding
`"a"` as father and as a union spouse. -/
theorem updateIdReferences_rewrites_all_witness :
    (updatePersonRefs "a" "b" refRichPerson).father_id ≠ some "a" ∧
    (updatePersonRefs "a" "b" refRichPerson).father_id = some "b" ∧
    updatePersonRefs "a" "b" refRichPerson ∈ updateIdReferences [refRichPerson] "a" "b" := by
  have h := updateIdReferences_rewrites_all [refRichPerson] "a" "b" (by decide)
  have h2 := h.2 refRichPerson (List.mem_singleton.mpr rfl)
  exact ⟨(h.1 (updatePersonRefs "a" "b" refRichPerson) h2.1).1,
    h2.2.1 (by decide), h2.1⟩

/-- Counterexample for C4: with `oldId = newId = "a"` the output still
contains `"a"` as a `father_id`, so the claim's universal form over all id
pairs fails. -/
theorem updateIdReferences_self_rename_keeps_old :
    refHolderPerson.father_id = some "a" ∧
    ¬ (∀ r ∈ updateIdReferences [refHolderPerson] "a" "a", r.father_id ≠ some "a") := by
  decide

theorem count_contribList (qid pid Qid : String) (l : List String) :
    (l.foldr (fun par acc => if par = pid then qid :: acc else acc) []).count Qid =
      if qid = Qid then l.count pid else 0 := by
  induction l with
  | nil => simp
  | cons a l ih =>
    simp only [List.foldr_cons]
    by_cases hq : qid = Qid
    · subst hq
      by_cases ha : a = pid <;>
        simp [ha, List.count_cons, ih, beq_iff_eq]
    · by_cases ha : a = pid <;>
        simp [ha, List.count_cons, ih, hq, beq_iff_eq]

theorem count_childContrib (q : Person) (pid Qid : String) :
    (childContrib q pid).count Qid = if q.id = Qid then (jsParentIds q).count pid else 0 :=
  count_contribList q.id pid Qid (jsParentIds q)

theorem childrenOf_cons (q : Person) (rest : List Person) (pid : String) :
    childrenOf (q :: rest) pid = childContrib q pid ++ childrenOf rest pid := rfl

theorem count_childrenOf_zero (pid Qid : String) :
    ∀ people : List Person, (∀ q ∈ people, q.id ≠ Qid) →
      (childrenOf people pid).count Qid = 0 := by
  intro people
  induction people with
  | nil => intro _; rfl
  | cons q rest ih =>
    intro h
    rw [childrenOf_cons, List.count_append, count_childContrib,
      if_neg (h q (List.mem_cons_self q rest)), ih (fun q' hq' => h q' (List.mem_cons_of_mem _ hq'))]

theorem count_childrenOf (people : List Person) (Q : Person) (pid : String)
    (hnd : (people.map Person.id).Nodup) (hQ : Q ∈ people) :
    (childrenOf people pid).count Q.id = (jsParentIds Q).count pid := by
  induction people with
  | nil => cases hQ
  | cons q rest ih =>
    rw [List.map_cons, List.nodup_cons] at hnd
    rcases List.mem_cons.mp hQ with rfl | hmem
    · rw [childrenOf_cons, List.count_append, count_childContrib, if_pos rfl,
        count_childrenOf_zero pid Q.id rest
          (fun q' hq' hc => hnd.1 (hc ▸ List.mem_map_of_mem Person.id hq'))]
      omega
    · have hqQ : q.id ≠ Q.id := fun h => hnd.1 (h ▸ List.mem_map_of_mem Person.id hmem)
      rw [childrenOf_cons, List.count_append, count_childContrib, if_neg hqQ,
        ih hnd.2 hmem]
      omega

theorem count_jsParentIds (Q : Person) (pid : String) (hf : Q.father_id = some pid)
    (hpid : pid ≠ "") (hm : Q.mother_id ≠ some pid) :
    (jsParentIds Q).count pid = 1 := by
  unfold jsParentIds truthyStrings
  rw [hf]
  cases hmo : Q.mother_id with
  | none => simp [hpid, List.count_cons, List.count_nil]
  | some m =>
    have hmp : m ≠ pid := fun hc => hm (by rw [hmo, hc])
    by_cases hme : m = "" <;>
      simp [hpid, hme, hmp, List.count_cons, List.count_nil, beq_iff_eq]

/-- C7 (amended): in the derived graph, a child whose `father_id` is `P.id`
and whose `mother_id` differs from `P.id` appears exactly once in `P`'s
children list (ids assumed unique and `P.id` nonempty). When both parent
fields name `P.id`, the child is pushed once per field and appears twice;
see the counterexample. -/
theorem child_listed_once (roster : List Person) (P Q : Person)
    (hnd : (roster.map Person.id).Nodup) (hP : P ∈ roster) (hQ : Q ∈ roster)
    (hf : Q.father_id = some P.id) (hpid : P.id ≠ "") (hm : Q.mother_id ≠ some P.id) :
    convertPerson roster P ∈ toFamilyChartData roster ∧
    ((convertPerson roster P).rels.children).count Q.id = 1 := by
  constructor
  · unfold toFamilyChartData
    have hne : ¬ (roster.isEmpty = true) := by
      cases roster with
      | nil => cases hP
      | cons a l => simp
    rw [if_neg hne]
    exact List.mem_map_of_mem _ hP
  · have hch : (convertPerson roster P).rels.children = childrenOf roster P.id := rfl
    rw [hch, count_childrenOf roster Q P.id hnd hQ, count_jsParentIds Q P.id hf hpid hm]

/-- Witness for C7: in the two-person roster where `q2` names `p1` as father
only, `q2` appears exactly once in `p1`'s derived children list. -/
theorem child_listed_once_witness :
    convertPerson singleParentRoster dupParentP ∈ toFamilyChartData singleParentRoster ∧
    ((convertPerson singleParentRoster dupParentP).rels.children).count singleParentQ.id = 1 :=
  child_listed_once singleParentRoster dupParentP singleParentQ
    (by decide) (by decide) (by decide) (by decide) (by decide) (by decide)

/-- Counterexample for C7: when `father_id` and `mother_id` both name `p1`,
the child id is pushed under the same key twice and appears twice in the
derived children list, not once. -/
theorem child_listed_twice_for_double_parent :
    dupParentQ.father_id = some dupParentP.id ∧
    ((convertPerson dupParentRoster dupParentP).rels.children).count dupParentQ.id = 2 := by
  decide

/-- C10: a person whose `gender` field is absent (or falsy) is emitted by
the adapter with `data.gender = "M"`, the node is part of the derived
graph, and it passes the gender check of the derived-graph validation with
no diagnostic. -/
theorem default_gender_passes_check (roster : List Person) (p : Person)
    (hp : p ∈ roster) (hg : truthyOpt p.gender = false) :
    (convertPerson roster p).data.gender = "M" ∧
    convertPerson roster p ∈ toFamilyChartData roster ∧
    genderCheckErrors (convertPerson roster p) = [] := by
  have hM : (convertPerson roster p).data.gender = "M" := by
    show jsOrStr p.gender "M" = "M"
    cases hpg : p.gender with
    | none => rfl
    | some s =>
      rw [hpg] at hg
      simp only [truthyOpt, Bool.not_eq_false'] at hg
      simp [jsOrStr, hg]
  refine ⟨hM, ?_, ?_⟩
  · unfold toFamilyChartData
    have hne : ¬ (roster.isEmpty = true) := by
      cases roster with
      | nil => cases hp
      | cons a l => simp
    rw [if_neg hne]
    exact List.mem_map_of_mem _ hp
  · simp [genderCheckErrors, hM]

/-- Witness for C10: concrete instantiation on a record with no gender. -/
theorem default_gender_passes_check_witness :
    (convertPerson [genderlessPerson] genderlessPerson).data.gender = "M" ∧
    convertPerson [genderlessPerson] genderlessPerson ∈ toFamilyChartData [genderlessPerson] ∧
    genderCheckErrors (convertPerson [genderlessPerson] genderlessPerson) = [] :=
  default_gender_passes_check [genderlessPerson] genderlessPerson
    (List.mem_singleton.mpr rfl) (by decide)
